import Mathlib

/-!
# Twig template parser front end: embedding and verified properties

Shallow embedding of `src/private/parser.cpp` (the helpers `toLoc`, `addTrim`,
`maybeNegate` used by the grammar actions, and the `Parser` driver methods
`parse`, `baseNode`, `stealBaseNode`, `clear`, `lastError`) and of the
`TemplateProgram::setValue` contract of `src/nuria/templateprogram.hpp`.

Conventions of the embedding:

* a C++ pointer is an `Option`: `none` is `nullptr`;
* a `Node *` handled by the parser is an address (`Nat`), because the trim
  table is keyed by node identity, not by node contents;
* `int` values that are only compared or or-ed together are `Int` (token ids,
  rows, columns) or `Nat` (trim bit masks);
* a method that mutates `ParserPrivate` takes the state and returns the new one;
* dereferencing a null `curProg` is undefined behaviour in C++; the embedding
  returns `none` there.
-/

namespace Nuria
namespace Template

/-! ## Data model -/

/-- Modelled from the spec: the source position `Location {row, column}`
(`astnodes.hpp` is not among the sources), built by `Location (row, column)`. -/
structure Location where
  row : Int
  column : Int
deriving DecidableEq, Repr

/-- Modelled from the spec: a token of the external tokenizer, with its kind
`tokenId`, its source `row` and `column`, and an optional literal payload. -/
structure Token where
  tokenId : Int
  row : Int
  column : Int
  value : Option String
deriving DecidableEq, Repr

/-- Source: `toLoc (tok)` is `Location (tok->row, tok->column)`. -/
def toLoc (tok : Token) : Location :=
  ⟨tok.row, tok.column⟩

/-- Modelled from the spec: the `Trim` flag constants (`astnodes.hpp` is not among
the sources). The spec calls them a bit-flag set
`None, Left, Right, InnerLeft, InnerRight`; their numeric values are kept as
parameters. -/
structure Trim where
  None : Nat
  Left : Nat
  Right : Nat
  InnerLeft : Nat
  InnerRight : Nat
deriving DecidableEq, Repr

/-- The constants form a bit-flag set: `None` is the empty mask, every flag is a
non-empty mask and two different flags share no bit. -/
def Trim.IsFlagSet (T : Trim) : Prop :=
  T.None = 0 ∧
  T.Left ≠ 0 ∧ T.Right ≠ 0 ∧ T.InnerLeft ≠ 0 ∧ T.InnerRight ≠ 0 ∧
  T.Left &&& T.Right = 0 ∧ T.Left &&& T.InnerLeft = 0 ∧ T.Left &&& T.InnerRight = 0 ∧
  T.Right &&& T.InnerLeft = 0 ∧ T.Right &&& T.InnerRight = 0 ∧
  T.InnerLeft &&& T.InnerRight = 0

instance (T : Trim) : Decidable T.IsFlagSet := by
  unfold Trim.IsFlagSet
  infer_instance

/-- A mode contains a flag when all bits of the flag are set in the mode. -/
def hasFlag (mode flag : Nat) : Prop :=
  mode &&& flag = flag

instance (mode flag : Nat) : Decidable (hasFlag mode flag) := by
  unfold hasFlag
  infer_instance

/-- Model of Qt's `QMap`: entries kept in ascending key order, one per key. -/
structure QMap (K V : Type) where
  entries : List (K × V)
deriving DecidableEq, Repr

namespace QMap

/-- A default-constructed (empty) `QMap`. -/
def empty {K V : Type} : QMap K V :=
  ⟨[]⟩

/-- Insertion into the key-ordered entry list; an entry with the same key is
replaced. -/
def insertEntries {V : Type} (k : Nat) (v : V) : List (Nat × V) → List (Nat × V)
  | [] => [(k, v)]
  | (k', v') :: rest =>
    if k < k' then (k, v) :: (k', v') :: rest
    else if k = k' then (k, v) :: rest
    else (k', v') :: insertEntries k v rest

/-- The call `QMap::insert (key, value)`: a new entry, or the value of the existing
entry replaced. -/
def insert {V : Type} (m : QMap Nat V) (k : Nat) (v : V) : QMap Nat V :=
  ⟨insertEntries k v m.entries⟩

/-- Lookup in the entry list. -/
def findEntry {V : Type} (k : Nat) : List (Nat × V) → Option V
  | [] => none
  | (k', v') :: rest => if k = k' then some v' else findEntry k rest

/-- The call `QMap::value (key, defaultValue)`. -/
def value {V : Type} (m : QMap Nat V) (k : Nat) (dflt : V) : V :=
  (findEntry k m.entries).getD dflt

/-- The call `QMap::contains (key)`. -/
def contains {V : Type} (m : QMap Nat V) (k : Nat) : Bool :=
  (findEntry k m.entries).isSome

end QMap

/-- Modelled from the spec: the shared program information reached through
`curProg->info` (`templateengine_p.hpp` is not among the sources); only the trim
table `trim`, a map from node identity to trim mode, is used by the parser. -/
structure SharedProgramInfo where
  trim : QMap Nat Nat
deriving DecidableEq, Repr

/-- Modelled from the spec: `TemplateProgramPrivate`, the compiled program under
construction (`templateengine_p.hpp` is not among the sources). -/
structure TemplateProgramPrivate where
  info : SharedProgramInfo
deriving DecidableEq, Repr

/-- Modelled from the spec: `TemplateError` (`templateerror.hpp` is not among the
sources). The spec gives an error a kind, a message and an optional location;
kind `0` stands for the no-error value. -/
structure TemplateError where
  kind : Nat
  message : String
  location : Option Location
deriving DecidableEq, Repr

/-- The default-constructed `TemplateError ()`, the no-error value. -/
def TemplateError.noError : TemplateError :=
  ⟨0, "", none⟩

/-- Source: `class ParserPrivate` with its four members. `node` and `engine` are
addresses; `curProg` carries the state of the program it points to. -/
structure ParserPrivate where
  node : Option Nat
  engine : Option Nat
  error : TemplateError
  curProg : Option TemplateProgramPrivate
deriving DecidableEq, Repr

/-! ## Grammar helpers -/

/-- The test `tok && tok->tokenId == id` on an optional token. -/
def tokenIs (tok : Option Token) (id : Int) : Bool :=
  match tok with
  | some t => t.tokenId == id
  | none => false

/-- Source: the first five statements of the token overload of `addTrim`, the
computation of `mode`. -/
def addTrimMode (T : Trim) (TOK_TRIM : Int)
    (left right innerLeft innerRight : Option Token) : Nat :=
  let mode := T.None
  let mode := if tokenIs left TOK_TRIM then mode ||| T.Left else mode
  let mode := if tokenIs right TOK_TRIM then mode ||| T.Right else mode
  let mode := if tokenIs innerLeft TOK_TRIM then mode ||| T.InnerLeft else mode
  let mode := if tokenIs innerRight TOK_TRIM then mode ||| T.InnerRight else mode
  mode

/-- Source: `addTrim (dptr, node, left, right, innerLeft, innerRight)`, the token
overload. `TOK_TRIM` is a constant of the generated `grammar/twig.h`. The result is
`none` when the insertion would dereference a null `curProg`. -/
def addTrim (T : Trim) (TOK_TRIM : Int) (dptr : ParserPrivate) (node : Option Nat)
    (left right innerLeft innerRight : Option Token) : Option ParserPrivate :=
  let mode := addTrimMode T TOK_TRIM left right innerLeft innerRight
  match decide (mode ≠ T.None), node with
  | true, some n =>
    match dptr.curProg with
    | some prog =>
      some { dptr with curProg := some { prog with info := { prog.info with
        trim := prog.info.trim.insert n mode } } }
    | none => none
  | _, _ => some dptr

/-- Source: the mode computation of the `bool` overload of `addTrim`. -/
def addTrimBoolMode (T : Trim) (left right : Bool) : Nat :=
  let mode := T.None
  let mode := if left then mode ||| T.Left else mode
  let mode := if right then mode ||| T.Right else mode
  mode

/-- Source: `addTrim (dptr, node, bool left, bool right)`, the `bool` overload. The
result is `none` when the insertion would dereference a null `curProg`. -/
def addTrimBool (T : Trim) (dptr : ParserPrivate) (node : Option Nat)
    (left right : Bool) : Option ParserPrivate :=
  let mode := addTrimBoolMode T left right
  match decide (mode ≠ T.None), node with
  | true, some n =>
    match dptr.curProg with
    | some prog =>
      some { dptr with curProg := some { prog with info := { prog.info with
        trim := prog.info.trim.insert n mode } } }
    | none => none
  | _, _ => some dptr

/-- Modelled from the spec: the lookup `trimModeOf (node)` of the renderer (not among
the sources), which "defaults to `None` if absent". -/
def trimModeOf (T : Trim) (prog : TemplateProgramPrivate) (node : Nat) : Nat :=
  prog.info.trim.value node T.None

/-- Modelled from the spec: the operator tag of an expression node (`astnodes.hpp` is
not among the sources). Only `Not` is named by the parser; every other operator is
`Other` with its code. -/
inductive Operator where
  | NoOp
  | Not
  | Other (code : Nat)
deriving DecidableEq, Repr

/-- Modelled from the spec: `ExpressionNode` (`astnodes.hpp` is not among the
sources), with the shape of the constructor call
`ExpressionNode (loc, left, op, right)` in `maybeNegate`; an operand pointer may be
null. -/
inductive ExpressionNode where
  | mk (loc : Location) (left : Option ExpressionNode) (op : Operator)
      (right : Option ExpressionNode)

/-- Member `loc` of an expression node. -/
def ExpressionNode.loc : ExpressionNode → Location
  | .mk l _ _ _ => l

/-- Member `left` of an expression node. -/
def ExpressionNode.left : ExpressionNode → Option ExpressionNode
  | .mk _ l _ _ => l

/-- Member `op` of an expression node. -/
def ExpressionNode.op : ExpressionNode → Operator
  | .mk _ _ o _ => o

/-- Member `right` of an expression node. -/
def ExpressionNode.right : ExpressionNode → Option ExpressionNode
  | .mk _ _ _ r => r

/-- Source: `maybeNegate (isNot, expr)`. `TOK_NOT` is a constant of the generated
`grammar/twig.h`. Both pointers are dereferenced by the callers' contract, so they
are values here. -/
def maybeNegate (TOK_NOT : Int) (isNot : Token) (expr : ExpressionNode) : ExpressionNode :=
  if isNot.tokenId = TOK_NOT then
    ExpressionNode.mk expr.loc (some expr) Operator.Not none
  else
    expr

/-! ## The parser driver -/

/-- Modelled from the spec: the LEMON-generated shift-reduce automaton of
`grammar/twig.c`, which is not among the sources. `A` is the automaton's own state
(`void *parser`), `TwigParserAlloc` its initial state and `TwigParser` one step:
it receives the token id, the token (null at end of stream) and the parser's private
data, which the grammar actions may change. -/
structure Lemon (A : Type) where
  TwigParserAlloc : A
  TwigParser : A → Int → Option Token → ParserPrivate → A × ParserPrivate

/-- Source: the constructor `Parser (engine)`: default members, then `engine` set. -/
def Parser.new (engine : Option Nat) : ParserPrivate :=
  ⟨none, engine, TemplateError.noError, none⟩

/-- Source: `Parser::clear ()`. The second component is the address handed to
`delete` (`none` for the no-op `delete nullptr`), i.e. the released tree. -/
def Parser.clear (d : ParserPrivate) : ParserPrivate × Option Nat :=
  ({ d with node := none, error := TemplateError.noError }, d.node)

/-- Source: the `for` loop of `Parser::parse`, from index `i` on: token `i` is fed
with its own `tokenId`, then the loop continues at `i + 1`. -/
def Parser.parseLoop {A : Type} (G : Lemon A) (tokens : List Token) (i : Nat) (parser : A)
    (d : ParserPrivate) : A × ParserPrivate :=
  if h : i < tokens.length then
    let tok := tokens.get ⟨i, h⟩
    let r := G.TwigParser parser tok.tokenId (some tok) d
    Parser.parseLoop G tokens (i + 1) r.1 r.2
  else
    (parser, d)
termination_by tokens.length - i

/-- Everything a call of `Parser::parse` leaves behind. -/
structure ParseOutcome (A : Type) where
  /-- The returned `bool`. -/
  result : Bool
  /-- The parser's private data afterwards. -/
  self : ParserPrivate
  /-- The state of the target program `*dptr` afterwards. -/
  prog : Option TemplateProgramPrivate
  /-- The tree released by the initial `clear ()`. -/
  released : Option Nat
  /-- The automaton state handed to `TwigParserFree`. -/
  parser : A

/-- Source: `Parser::parse (tokens, dptr)`. `hasFailed` is `TemplateError::hasFailed`,
whose definition is not among the sources. -/
def Parser.parse {A : Type} (G : Lemon A) (hasFailed : TemplateError → Bool)
    (self : ParserPrivate) (tokens : List Token) (dptr : Option TemplateProgramPrivate) :
    ParseOutcome A :=
  let cleared := Parser.clear self
  let d := { cleared.1 with curProg := dptr }
  let parser := G.TwigParserAlloc
  let fed := Parser.parseLoop G tokens 0 parser d
  let fin := G.TwigParser fed.1 0 none fed.2
  let d := { fin.2 with curProg := none }
  ⟨!hasFailed d.error, d, fin.2.curProg, cleared.2, fin.1⟩

/-- Source: `Parser::baseNode ()`; a non-const method, so the state is returned too. -/
def Parser.baseNode (d : ParserPrivate) : Option Nat × ParserPrivate :=
  (d.node, d)

/-- Source: `Parser::stealBaseNode ()`. -/
def Parser.stealBaseNode (d : ParserPrivate) : Option Nat × ParserPrivate :=
  let node := d.node
  (node, { d with node := none })

/-- Source: `Parser::lastError () const`. -/
def Parser.lastError (d : ParserPrivate) : TemplateError :=
  d.error

/-! ## Specification-side definitions -/

/-- One automaton step as a function on the pair of automaton state and parser
data, for a token of the stream. -/
def feedToken {A : Type} (G : Lemon A) (s : A × ParserPrivate) (tok : Token) :
    A × ParserPrivate :=
  G.TwigParser s.1 tok.tokenId (some tok) s.2

/-- The end-of-stream step: token id `0`, no token. -/
def feedEnd {A : Type} (G : Lemon A) (s : A × ParserPrivate) : A × ParserPrivate :=
  G.TwigParser s.1 0 none s.2

/-- The state in which the first step is taken: the cleared parser with `curProg`
pointing to the target program, and the freshly allocated automaton. -/
def startState {A : Type} (G : Lemon A) (self : ParserPrivate)
    (dptr : Option TemplateProgramPrivate) : A × ParserPrivate :=
  (G.TwigParserAlloc, { (Parser.clear self).1 with curProg := dptr })

/-- The automaton `G` with a log of the calls it received, oldest first. -/
def traced {A : Type} (G : Lemon A) : Lemon (A × List (Int × Option Token)) where
  TwigParserAlloc := (G.TwigParserAlloc, [])
  TwigParser s id tok d :=
    (((G.TwigParser s.1 id tok d).1, s.2 ++ [(id, tok)]), (G.TwigParser s.1 id tok d).2)

/-- A call of either `addTrim` overload. -/
inductive TrimCall where
  | tokens (node : Option Nat) (left right innerLeft innerRight : Option Token)
  | flags (node : Option Nat) (left right : Bool)
deriving DecidableEq, Repr

/-- The node argument of a call. -/
def TrimCall.node : TrimCall → Option Nat
  | .tokens node _ _ _ _ => node
  | .flags node _ _ => node

/-- The call carries a trim marker: some supplied token is `TOK_TRIM`, or some
boolean is true. -/
def TrimCall.marked (TOK_TRIM : Int) : TrimCall → Bool
  | .tokens _ left right innerLeft innerRight =>
    tokenIs left TOK_TRIM || tokenIs right TOK_TRIM || tokenIs innerLeft TOK_TRIM ||
      tokenIs innerRight TOK_TRIM
  | .flags _ left right => left || right

/-- Performs one call. -/
def TrimCall.run (T : Trim) (TOK_TRIM : Int) (d : ParserPrivate) :
    TrimCall → Option ParserPrivate
  | .tokens node left right innerLeft innerRight =>
    addTrim T TOK_TRIM d node left right innerLeft innerRight
  | .flags node left right => addTrimBool T d node left right

/-- Performs a sequence of calls, first to last. -/
def runTrimCalls (T : Trim) (TOK_TRIM : Int) : List TrimCall → ParserPrivate →
    Option ParserPrivate
  | [], d => some d
  | c :: cs, d =>
    match c.run T TOK_TRIM d with
    | some d' => runTrimCalls T TOK_TRIM cs d'
    | none => none

/-! ## The automaton as the specification describes it -/

/-- Modelled from the spec: what the action tables of the shift-reduce automaton
(`grammar/twig.c`, not among the sources) decide for the current stack and token:
the token is consumed and the grammar action records its trim markers in the target
program; or a reduction yields the root node, which becomes the parse result; or
the token is unexpected (a syntax error). -/
inductive GrammarAction (S : Type) where
  | advance (next : S) (record : TemplateProgramPrivate → TemplateProgramPrivate)
  | accept (next : S) (root : Nat) (record : TemplateProgramPrivate → TemplateProgramPrivate)
  | unexpected

/-- Modelled from the spec: the state of the automaton (`grammar/twig.c`, not among
the sources): running on a stack, or aborted by a parse failure. -/
inductive AutomatonState (S : Type) where
  | running (stack : S)
  | aborted

/-- Modelled from the spec: the grammar behind the automaton (`grammar/twig.c`, not
among the sources), as its initial stack and its action tables; the tables are kept
as parameters. -/
structure GrammarTables (S : Type) where
  initial : S
  action : S → Int → Option Token → GrammarAction S

/-- Modelled from the spec: the error of a parse failure, "an Error with the
offending token's location" (the error constructors of `templateerror.hpp` are not
among the sources); at end of stream there is no token and no location. -/
def unexpectedTokenError (tok : Option Token) : TemplateError :=
  ⟨1, "Unexpected token", tok.map toLoc⟩

/-- Modelled from the spec: one step of the automaton (`TwigParser` of
`grammar/twig.c`, not among the sources). Section 4.1: "Parse failure (unexpected
token, syntax error) aborts parsing, records an Error with the offending token's
location, and discards any partially built tree"; section 3: the error is "set at
most once per call (first failure wins)". An aborted automaton ignores what it is fed. -/
def specTwigParser {S : Type} (t : GrammarTables S) :
    AutomatonState S → Int → Option Token → ParserPrivate → AutomatonState S × ParserPrivate
  | .aborted, _, _, d => (.aborted, d)
  | .running stack, id, tok, d =>
    match t.action stack id tok with
    | .advance next record => (.running next, { d with curProg := d.curProg.map record })
    | .accept next root record =>
      (.running next, { d with node := some root, curProg := d.curProg.map record })
    | .unexpected => (.aborted, { d with node := none, error := unexpectedTokenError tok })

/-- Modelled from the spec: the automaton of the grammar `t` (`grammar/twig.c`, not
among the sources), starting on the initial stack. -/
def specAutomaton {S : Type} (t : GrammarTables S) : Lemon (AutomatonState S) where
  TwigParserAlloc := .running t.initial
  TwigParser := specTwigParser t

/-- The relation between automaton and parser data that the steps of the automaton
keep: while it runs no error is held, and once it has aborted no tree is held. -/
def SpecInvariant {S : Type} (s : AutomatonState S × ParserPrivate) : Prop :=
  match s.1 with
  | .running _ => s.2.error = TemplateError.noError
  | .aborted => s.2.node = none

/-! ## Program instance -/

/-- Modelled from the spec: the compiled program shared by program instances
(`templateprogram.cpp` and `templateengine_p.hpp` are not among the sources); only
the ordered list of distinct needed variable names matters here, the index of a name
being its position in that list. -/
structure CompiledProgram where
  neededVariables : List String
deriving DecidableEq, Repr

/-- Modelled from the spec: a program instance, the shared compiled program plus
the private overlay `values` from variable index to bound value (`none`: unbound). -/
structure TemplateProgram (V : Type) where
  sharedCompiled : CompiledProgram
  values : Nat → Option V

/-- Modelled from the spec: `neededVariables ()`. -/
def TemplateProgram.neededVariables {V : Type} (p : TemplateProgram V) : List String :=
  p.sharedCompiled.neededVariables

/-- Modelled from the spec: `value (name)`, the bound value or unbound. -/
def TemplateProgram.value {V : Type} (p : TemplateProgram V) (name : String) : Option V :=
  match p.sharedCompiled.neededVariables.indexOf? name with
  | some i => p.values i
  | none => none

/-- Modelled from the spec: `setValue (name, value)` "returns true and records the
binding only if `name` is present in `neededVariables`; returns false (value
discarded) otherwise". -/
def TemplateProgram.setValue {V : Type} (p : TemplateProgram V) (name : String) (v : V) :
    Bool × TemplateProgram V :=
  match p.sharedCompiled.neededVariables.indexOf? name with
  | some i => (true, { p with values := Function.update p.values i (some v) })
  | none => (false, p)

/-! ## Concrete inputs used for evaluation -/

/-- A concrete token with the given id, used for evaluation. -/
def sampleToken (id : Int) : Token :=
  ⟨id, 1, 1, none⟩

/-- A parser state whose current program has an empty trim table. -/
def sampleState : ParserPrivate :=
  ⟨none, none, TemplateError.noError, some ⟨⟨QMap.empty⟩⟩⟩

/-- A sequence of `addTrim` calls: node 42 with a trim token on its left, node 43 with
the right boolean set, node 5 without any marker, and a marked call on a null node. -/
def demoCalls : List TrimCall :=
  [.tokens (some 42) (some (sampleToken 7)) (some (sampleToken 3)) none none,
   .flags (some 43) false true,
   .tokens (some 5) (some (sampleToken 3)) none none none,
   .flags none true true]

/-- An expression node without operands, at row 2, column 5. -/
def demoExpr : ExpressionNode :=
  .mk ⟨2, 5⟩ none Operator.NoOp none

/-- A small automaton for evaluation: it logs every call, treats token id `99` as
unexpected (a syntax error with the token's location is recorded) and, at end of
stream, stores the tree at address `1` as the parse result. -/
def demoGrammar : Lemon (List (Int × Option Token)) where
  TwigParserAlloc := []
  TwigParser log id tok d :=
    (log ++ [(id, tok)],
      if id = 99 then { d with error := ⟨1, "Unexpected token", tok.map toLoc⟩ }
      else if id = 0 then { d with node := some 1 }
      else d)

/-- A `hasFailed` for evaluation: the error kind is not the no-error kind. -/
def demoHasFailed (e : TemplateError) : Bool :=
  e.kind != 0

/-- Action tables for evaluation: token id `99` is unexpected, the end of stream
(id `0`) yields the root at address 1, every other token is consumed. -/
def demoTables : GrammarTables Nat where
  initial := 0
  action stack id _ :=
    if id = 99 then .unexpected
    else if id = 0 then .accept stack 1 (fun p => p)
    else .advance (stack + 1) (fun p => p)

/-- A parser state left behind by an earlier, failed parse: it holds the tree at
address 9 and a syntax error. -/
def usedState : ParserPrivate :=
  ⟨some 9, none, ⟨1, "Unexpected token", some ⟨1, 1⟩⟩, none⟩

/-- A target program with an empty trim table. -/
def demoTarget : Option TemplateProgramPrivate :=
  some ⟨⟨QMap.empty⟩⟩

/-- A program instance needing `name` and `items`, nothing bound. -/
def demoProgram : TemplateProgram Nat :=
  ⟨⟨["name", "items"]⟩, fun _ => none⟩

/-- The usual numbering of the flags, used for concrete evaluation. -/
def Trim.standard : Trim :=
  ⟨0, 1, 2, 4, 8⟩

/-! ## Lemmas on bit masks and on the map model -/

theorem or_and_self (m f : Nat) : (m ||| f) &&& f = f := by
  apply Nat.eq_of_testBit_eq
  intro i
  simp only [Nat.testBit_lor, Nat.testBit_land]
  cases m.testBit i <;> cases f.testBit i <;> rfl

theorem or_and_of_disjoint (m g f : Nat) (h : g &&& f = 0) :
    (m ||| g) &&& f = m &&& f := by
  apply Nat.eq_of_testBit_eq
  intro i
  have hi : (g &&& f).testBit i = false := by
    rw [h]
    exact Nat.zero_testBit i
  simp only [Nat.testBit_lor, Nat.testBit_land] at hi ⊢
  revert hi
  cases m.testBit i <;> cases f.testBit i <;> cases g.testBit i <;> simp

theorem tokenIs_iff (tok : Option Token) (id : Int) :
    tokenIs tok id = true ↔ ∃ t, tok = some t ∧ t.tokenId = id := by
  cases tok with
  | none => simp [tokenIs]
  | some t => simp [tokenIs]

/-- The mode built from four conditions holds each flag exactly when its condition
is true, and no bit outside the four flags. -/
theorem mode_of_conditions (T : Trim) (hT : T.IsFlagSet) (a b c d : Bool) :
    let mode :=
      let mode := T.None
      let mode := if a then mode ||| T.Left else mode
      let mode := if b then mode ||| T.Right else mode
      let mode := if c then mode ||| T.InnerLeft else mode
      let mode := if d then mode ||| T.InnerRight else mode
      mode
    (hasFlag mode T.Left ↔ a = true) ∧ (hasFlag mode T.Right ↔ b = true) ∧
    (hasFlag mode T.InnerLeft ↔ c = true) ∧ (hasFlag mode T.InnerRight ↔ d = true) ∧
    mode &&& (T.Left ||| T.Right ||| T.InnerLeft ||| T.InnerRight) = mode := by
  obtain ⟨h0, hL, hR, hIL, hIR, hLR, hLI, hLJ, hRI, hRJ, hIJ⟩ := hT
  have hRL : T.Right &&& T.Left = 0 := by rw [Nat.land_comm]; exact hLR
  have hIL' : T.InnerLeft &&& T.Left = 0 := by rw [Nat.land_comm]; exact hLI
  have hJL : T.InnerRight &&& T.Left = 0 := by rw [Nat.land_comm]; exact hLJ
  have hIR' : T.InnerLeft &&& T.Right = 0 := by rw [Nat.land_comm]; exact hRI
  have hJR : T.InnerRight &&& T.Right = 0 := by rw [Nat.land_comm]; exact hRJ
  have hJI : T.InnerRight &&& T.InnerLeft = 0 := by rw [Nat.land_comm]; exact hIJ
  have hL0 : ¬ (0 = T.Left) := fun h => hL h.symm
  have hR0 : ¬ (0 = T.Right) := fun h => hR h.symm
  have hI0 : ¬ (0 = T.InnerLeft) := fun h => hIL h.symm
  have hJ0 : ¬ (0 = T.InnerRight) := fun h => hIR h.symm
  have hbits : ∀ m : Nat, (∀ i, m.testBit i = true → (T.Left.testBit i || T.Right.testBit i
      || T.InnerLeft.testBit i || T.InnerRight.testBit i) = true) →
      m &&& (T.Left ||| T.Right ||| T.InnerLeft ||| T.InnerRight) = m := by
    intro m hm
    apply Nat.eq_of_testBit_eq
    intro i
    have := hm i
    simp only [Nat.testBit_lor, Nat.testBit_land] at this ⊢
    revert this
    cases m.testBit i <;> simp
  cases a <;> cases b <;> cases c <;> cases d <;>
    (refine ⟨?_, ?_, ?_, ?_, ?_⟩ <;>
      first
      | (apply hbits
         intro i
         simp only [h0, if_true, if_false, Nat.testBit_lor, Nat.zero_testBit, Bool.or_eq_true,
           Bool.false_or, Bool.false_eq_true, false_or, false_imp_iff]
         try tauto)
      | simp [hasFlag, h0, or_and_self, or_and_of_disjoint, *])

theorem findEntry_insertEntries_self {V : Type} (k : Nat) (v : V) (l : List (Nat × V)) :
    QMap.findEntry k (QMap.insertEntries k v l) = some v := by
  induction l with
  | nil => simp [QMap.insertEntries, QMap.findEntry]
  | cons hd tl ih =>
    obtain ⟨k', v'⟩ := hd
    simp only [QMap.insertEntries]
    split
    · simp [QMap.findEntry]
    · split
      · simp [QMap.findEntry]
      · rename_i h1 h2
        simp [QMap.findEntry, h2, ih]

theorem mem_insertEntries {V : Type} (k : Nat) (v : V) (l : List (Nat × V)) (p : Nat × V)
    (h : p ∈ QMap.insertEntries k v l) : p = (k, v) ∨ p ∈ l := by
  induction l with
  | nil => simpa [QMap.insertEntries] using h
  | cons hd tl ih =>
    obtain ⟨k', v'⟩ := hd
    simp only [QMap.insertEntries] at h
    split at h
    · simpa using h
    · split at h
      · rcases List.mem_cons.mp h with h | h
        · exact Or.inl h
        · exact Or.inr (List.mem_cons_of_mem _ h)
      · rcases List.mem_cons.mp h with h | h
        · exact Or.inr (by simp [h])
        · rcases ih h with h | h
          · exact Or.inl h
          · exact Or.inr (List.mem_cons_of_mem _ h)

theorem mem_of_findEntry {V : Type} (k : Nat) (v : V) (l : List (Nat × V))
    (h : QMap.findEntry k l = some v) : (k, v) ∈ l := by
  induction l with
  | nil => simp [QMap.findEntry] at h
  | cons hd tl ih =>
    obtain ⟨k', v'⟩ := hd
    simp only [QMap.findEntry] at h
    split at h
    · rename_i hk
      subst hk
      simp at h
      simp [h]
    · exact List.mem_cons_of_mem _ (ih h)

/-! ## Trim markers recorded by `addTrim` -/

theorem addTrim_of_mode_ne (T : Trim) (TOK_TRIM : Int) (dptr : ParserPrivate)
    (prog : TemplateProgramPrivate) (hprog : dptr.curProg = some prog) (n : Nat)
    (left right innerLeft innerRight : Option Token)
    (h : addTrimMode T TOK_TRIM left right innerLeft innerRight ≠ T.None) :
    addTrim T TOK_TRIM dptr (some n) left right innerLeft innerRight =
      some { dptr with curProg := some ⟨⟨prog.info.trim.insert n
        (addTrimMode T TOK_TRIM left right innerLeft innerRight)⟩⟩ } := by
  unfold addTrim
  simp only [decide_eq_true h, hprog]

theorem addTrim_of_mode_eq (T : Trim) (TOK_TRIM : Int) (dptr : ParserPrivate)
    (node : Option Nat) (left right innerLeft innerRight : Option Token)
    (h : addTrimMode T TOK_TRIM left right innerLeft innerRight = T.None) :
    addTrim T TOK_TRIM dptr node left right innerLeft innerRight = some dptr := by
  unfold addTrim
  simp [h]

theorem addTrim_of_null (T : Trim) (TOK_TRIM : Int) (dptr : ParserPrivate)
    (left right innerLeft innerRight : Option Token) :
    addTrim T TOK_TRIM dptr none left right innerLeft innerRight = some dptr := by
  unfold addTrim
  split <;> simp_all

theorem addTrimBool_of_mode_ne (T : Trim) (dptr : ParserPrivate)
    (prog : TemplateProgramPrivate) (hprog : dptr.curProg = some prog) (n : Nat)
    (left right : Bool) (h : addTrimBoolMode T left right ≠ T.None) :
    addTrimBool T dptr (some n) left right =
      some { dptr with curProg := some ⟨⟨prog.info.trim.insert n
        (addTrimBoolMode T left right)⟩⟩ } := by
  unfold addTrimBool
  simp only [decide_eq_true h, hprog]

theorem addTrimBool_of_mode_eq (T : Trim) (dptr : ParserPrivate)
    (node : Option Nat) (left right : Bool) (h : addTrimBoolMode T left right = T.None) :
    addTrimBool T dptr node left right = some dptr := by
  unfold addTrimBool
  simp [h]

theorem addTrimBool_of_null (T : Trim) (dptr : ParserPrivate) (left right : Bool) :
    addTrimBool T dptr none left right = some dptr := by
  unfold addTrimBool
  split <;> simp_all

/-- C1: for a non-null node and any four optional bounding tokens, the mode
computed by the token overload of `addTrim` contains the Left, Right, InnerLeft,
InnerRight flag exactly when the corresponding token is present and is a `TOK_TRIM`
token, and contains no other bit; when the mode differs from `None`, `addTrim`
succeeds and the trim table of the current program maps the node to exactly that
mode afterwards. -/
theorem addTrim_tokens_records_mode (T : Trim) (hT : T.IsFlagSet) (TOK_TRIM : Int)
    (dptr : ParserPrivate) (prog : TemplateProgramPrivate) (hprog : dptr.curProg = some prog)
    (node : Nat) (left right innerLeft innerRight : Option Token) :
    (hasFlag (addTrimMode T TOK_TRIM left right innerLeft innerRight) T.Left ↔
      ∃ t, left = some t ∧ t.tokenId = TOK_TRIM) ∧
    (hasFlag (addTrimMode T TOK_TRIM left right innerLeft innerRight) T.Right ↔
      ∃ t, right = some t ∧ t.tokenId = TOK_TRIM) ∧
    (hasFlag (addTrimMode T TOK_TRIM left right innerLeft innerRight) T.InnerLeft ↔
      ∃ t, innerLeft = some t ∧ t.tokenId = TOK_TRIM) ∧
    (hasFlag (addTrimMode T TOK_TRIM left right innerLeft innerRight) T.InnerRight ↔
      ∃ t, innerRight = some t ∧ t.tokenId = TOK_TRIM) ∧
    (addTrimMode T TOK_TRIM left right innerLeft innerRight &&&
        (T.Left ||| T.Right ||| T.InnerLeft ||| T.InnerRight) =
      addTrimMode T TOK_TRIM left right innerLeft innerRight) ∧
    (addTrimMode T TOK_TRIM left right innerLeft innerRight ≠ T.None →
      ∃ prog', addTrim T TOK_TRIM dptr (some node) left right innerLeft innerRight =
          some { dptr with curProg := some prog' } ∧
        prog'.info.trim.contains node = true ∧
        ∀ dflt, prog'.info.trim.value node dflt =
          addTrimMode T TOK_TRIM left right innerLeft innerRight) := by
  have hm := mode_of_conditions T hT (tokenIs left TOK_TRIM) (tokenIs right TOK_TRIM)
    (tokenIs innerLeft TOK_TRIM) (tokenIs innerRight TOK_TRIM)
  obtain ⟨h1, h2, h3, h4, h5⟩ := hm
  refine ⟨h1.trans (tokenIs_iff _ _), h2.trans (tokenIs_iff _ _), h3.trans (tokenIs_iff _ _),
    h4.trans (tokenIs_iff _ _), h5, ?_⟩
  intro hne
  refine ⟨_, addTrim_of_mode_ne T TOK_TRIM dptr prog hprog node left right innerLeft
    innerRight hne, ?_, ?_⟩
  · simp [QMap.contains, QMap.insert, findEntry_insertEntries_self]
  · intro dflt
    simp [QMap.value, QMap.insert, findEntry_insertEntries_self]

/-- Witness of C1: flags 0, 1, 2, 4, 8, `TOK_TRIM = 7`, node 42 bounded by a trim token
on the left and an ordinary token on the right. -/
theorem addTrim_tokens_records_mode_witness :
    hasFlag (addTrimMode Trim.standard 7 (some (sampleToken 7)) (some (sampleToken 3))
      none none) Trim.standard.Left ∧
    addTrimMode Trim.standard 7 (some (sampleToken 7)) (some (sampleToken 3)) none none = 1 ∧
    ∃ prog', addTrim Trim.standard 7 sampleState (some 42) (some (sampleToken 7))
        (some (sampleToken 3)) none none = some { sampleState with curProg := some prog' } ∧
      prog'.info.trim.contains 42 = true ∧
      ∀ dflt, prog'.info.trim.value 42 dflt =
        addTrimMode Trim.standard 7 (some (sampleToken 7)) (some (sampleToken 3)) none none :=
  have h := addTrim_tokens_records_mode Trim.standard (by decide) 7 sampleState
    ⟨⟨QMap.empty⟩⟩ rfl 42 (some (sampleToken 7)) (some (sampleToken 3)) none none
  ⟨h.1.mpr ⟨sampleToken 7, rfl, rfl⟩, by decide, h.2.2.2.2.2 (by decide)⟩

theorem addTrimMode_of_unmarked (T : Trim) (TOK_TRIM : Int)
    (left right innerLeft innerRight : Option Token)
    (h : (tokenIs left TOK_TRIM || tokenIs right TOK_TRIM || tokenIs innerLeft TOK_TRIM ||
      tokenIs innerRight TOK_TRIM) = false) :
    addTrimMode T TOK_TRIM left right innerLeft innerRight = T.None := by
  simp only [Bool.or_eq_false_iff] at h
  obtain ⟨⟨⟨h1, h2⟩, h3⟩, h4⟩ := h
  simp [addTrimMode, h1, h2, h3, h4]

theorem addTrimBoolMode_of_unmarked (T : Trim) (left right : Bool)
    (h : (left || right) = false) : addTrimBoolMode T left right = T.None := by
  simp only [Bool.or_eq_false_iff] at h
  simp [addTrimBoolMode, h.1, h.2]

/-- One call on a state with a current program succeeds, and every entry of the
table afterwards was there before or belongs to the call's node, carries a mode
different from `None` and stems from a marker. -/
theorem TrimCall.run_entries (T : Trim) (TOK_TRIM : Int) (d : ParserPrivate)
    (prog : TemplateProgramPrivate) (hd : d.curProg = some prog) (c : TrimCall) :
    ∃ d' prog', c.run T TOK_TRIM d = some d' ∧ d'.curProg = some prog' ∧
      ∀ p ∈ prog'.info.trim.entries, p ∈ prog.info.trim.entries ∨
        (c.node = some p.1 ∧ c.marked TOK_TRIM = true ∧ p.2 ≠ T.None) := by
  cases c with
  | tokens node left right innerLeft innerRight =>
    by_cases hm : addTrimMode T TOK_TRIM left right innerLeft innerRight = T.None
    · exact ⟨d, prog, addTrim_of_mode_eq T TOK_TRIM d node left right innerLeft innerRight hm,
        hd, fun p hp => Or.inl hp⟩
    · cases node with
      | none =>
        exact ⟨d, prog, addTrim_of_null T TOK_TRIM d left right innerLeft innerRight, hd,
          fun p hp => Or.inl hp⟩
      | some n =>
        refine ⟨_, _, addTrim_of_mode_ne T TOK_TRIM d prog hd n left right innerLeft
          innerRight hm, rfl, ?_⟩
        intro p hp
        rcases mem_insertEntries _ _ _ _ hp with h | h
        · refine Or.inr ⟨by simp [TrimCall.node, h], ?_, by simpa [h] using hm⟩
          cases hmk : TrimCall.marked TOK_TRIM (.tokens (some n) left right innerLeft innerRight)
          · exact absurd
              (addTrimMode_of_unmarked T TOK_TRIM left right innerLeft innerRight hmk) hm
          · rfl
        · exact Or.inl h
  | flags node left right =>
    by_cases hm : addTrimBoolMode T left right = T.None
    · exact ⟨d, prog, addTrimBool_of_mode_eq T d node left right hm, hd, fun p hp => Or.inl hp⟩
    · cases node with
      | none => exact ⟨d, prog, addTrimBool_of_null T d left right, hd, fun p hp => Or.inl hp⟩
      | some n =>
        refine ⟨_, _, addTrimBool_of_mode_ne T d prog hd n left right hm, rfl, ?_⟩
        intro p hp
        rcases mem_insertEntries _ _ _ _ hp with h | h
        · refine Or.inr ⟨by simp [TrimCall.node, h], ?_, by simpa [h] using hm⟩
          cases hmk : TrimCall.marked TOK_TRIM (.flags (some n) left right)
          · exact absurd (addTrimBoolMode_of_unmarked T left right hmk) hm
          · rfl
        · exact Or.inl h

/-- A sequence of calls on a state with a current program succeeds, and every entry
of the table afterwards was there before or was inserted for a marked call with a
mode different from `None`. -/
theorem runTrimCalls_entries (T : Trim) (TOK_TRIM : Int) (calls : List TrimCall) :
    ∀ (d : ParserPrivate) (prog : TemplateProgramPrivate), d.curProg = some prog →
    ∃ d' prog', runTrimCalls T TOK_TRIM calls d = some d' ∧ d'.curProg = some prog' ∧
      ∀ p ∈ prog'.info.trim.entries, p ∈ prog.info.trim.entries ∨
        (p.2 ≠ T.None ∧ ∃ c ∈ calls, c.node = some p.1 ∧ c.marked TOK_TRIM = true) := by
  induction calls with
  | nil =>
    intro d prog hd
    exact ⟨d, prog, rfl, hd, fun p hp => Or.inl hp⟩
  | cons c cs ih =>
    intro d prog hd
    obtain ⟨d1, prog1, hrun, hd1, hent1⟩ := TrimCall.run_entries T TOK_TRIM d prog hd c
    obtain ⟨d2, prog2, hrun2, hd2, hent2⟩ := ih d1 prog1 hd1
    refine ⟨d2, prog2, by simp [runTrimCalls, hrun, hrun2], hd2, ?_⟩
    intro p hp
    rcases hent2 p hp with h | ⟨hne, c', hc', hn, hm⟩
    · rcases hent1 p h with h | ⟨hn, hm, hne⟩
      · exact Or.inl h
      · exact Or.inr ⟨hne, c, List.mem_cons_self _ _, hn, hm⟩
    · exact Or.inr ⟨hne, c', List.mem_cons_of_mem _ hc', hn, hm⟩

/-- C8: the trim table never holds a `None` entry. Both overloads of `addTrim` leave
the state exactly unchanged when the computed mode is `None` (in particular when no
supplied token is `TOK_TRIM`, or both booleans are false) or when the node is null;
an entry they insert has a mode different from `None`; and starting from an empty
table, after any sequence of `addTrim` calls every stored mode differs from `None`
and a node that never received a trim marker is absent, its lookup yielding the
default `None`. -/
theorem trim_table_never_holds_none (T : Trim) (TOK_TRIM : Int) :
    (∀ d node left right innerLeft innerRight,
      addTrimMode T TOK_TRIM left right innerLeft innerRight = T.None ∨ node = none →
      addTrim T TOK_TRIM d node left right innerLeft innerRight = some d) ∧
    (∀ left right innerLeft innerRight,
      tokenIs left TOK_TRIM = false → tokenIs right TOK_TRIM = false →
      tokenIs innerLeft TOK_TRIM = false → tokenIs innerRight TOK_TRIM = false →
      addTrimMode T TOK_TRIM left right innerLeft innerRight = T.None) ∧
    (∀ d node left right, addTrimBoolMode T left right = T.None ∨ node = none →
      addTrimBool T d node left right = some d) ∧
    addTrimBoolMode T false false = T.None ∧
    (∀ d d' node left right innerLeft innerRight,
      addTrim T TOK_TRIM d node left right innerLeft innerRight = some d' →
      d' = d ∨ ∃ prog n mode, d.curProg = some prog ∧ node = some n ∧ mode ≠ T.None ∧
        d' = { d with curProg := some ⟨⟨prog.info.trim.insert n mode⟩⟩ }) ∧
    (∀ d d' node left right, addTrimBool T d node left right = some d' →
      d' = d ∨ ∃ prog n mode, d.curProg = some prog ∧ node = some n ∧ mode ≠ T.None ∧
        d' = { d with curProg := some ⟨⟨prog.info.trim.insert n mode⟩⟩ }) ∧
    (∀ (calls : List TrimCall) (d : ParserPrivate) (prog : TemplateProgramPrivate),
      d.curProg = some prog → prog.info.trim = QMap.empty →
      ∃ d' prog', runTrimCalls T TOK_TRIM calls d = some d' ∧ d'.curProg = some prog' ∧
        (∀ k v, (k, v) ∈ prog'.info.trim.entries → v ≠ T.None) ∧
        (∀ n, (∀ c ∈ calls, c.node = some n → c.marked TOK_TRIM = false) →
          prog'.info.trim.contains n = false ∧ trimModeOf T prog' n = T.None)) := by
  refine ⟨?_, ?_, ?_, ?_, ?_, ?_, ?_⟩
  · intro d node left right innerLeft innerRight h
    rcases h with h | h
    · exact addTrim_of_mode_eq T TOK_TRIM d node left right innerLeft innerRight h
    · subst h
      exact addTrim_of_null T TOK_TRIM d left right innerLeft innerRight
  · intro left right innerLeft innerRight h1 h2 h3 h4
    exact addTrimMode_of_unmarked T TOK_TRIM left right innerLeft innerRight
      (by simp [h1, h2, h3, h4])
  · intro d node left right h
    rcases h with h | h
    · exact addTrimBool_of_mode_eq T d node left right h
    · subst h
      exact addTrimBool_of_null T d left right
  · rfl
  · intro d d' node left right innerLeft innerRight h
    by_cases hm : addTrimMode T TOK_TRIM left right innerLeft innerRight = T.None
    · rw [addTrim_of_mode_eq T TOK_TRIM d node left right innerLeft innerRight hm] at h
      exact Or.inl (Option.some.inj h).symm
    · cases node with
      | none =>
        rw [addTrim_of_null] at h
        exact Or.inl (Option.some.inj h).symm
      | some n =>
        cases hp : d.curProg with
        | none => simp [addTrim, hm, hp] at h
        | some prog =>
          rw [addTrim_of_mode_ne T TOK_TRIM d prog hp n left right innerLeft innerRight hm] at h
          exact Or.inr ⟨prog, n, _, rfl, rfl, hm, (Option.some.inj h).symm⟩
  · intro d d' node left right h
    by_cases hm : addTrimBoolMode T left right = T.None
    · rw [addTrimBool_of_mode_eq T d node left right hm] at h
      exact Or.inl (Option.some.inj h).symm
    · cases node with
      | none =>
        rw [addTrimBool_of_null] at h
        exact Or.inl (Option.some.inj h).symm
      | some n =>
        cases hp : d.curProg with
        | none => simp [addTrimBool, hm, hp] at h
        | some prog =>
          rw [addTrimBool_of_mode_ne T d prog hp n left right hm] at h
          exact Or.inr ⟨prog, n, _, rfl, rfl, hm, (Option.some.inj h).symm⟩
  · intro calls d prog hd hempty
    obtain ⟨d', prog', hrun, hd', hent⟩ := runTrimCalls_entries T TOK_TRIM calls d prog hd
    have hnot : ∀ p, p ∉ prog.info.trim.entries := by
      intro p
      rw [hempty]
      simp [QMap.empty]
    refine ⟨d', prog', hrun, hd', ?_, ?_⟩
    · intro k v hkv
      rcases hent (k, v) hkv with h | h
      · exact absurd h (hnot _)
      · exact h.1
    · intro n hn
      have hfind : QMap.findEntry n prog'.info.trim.entries = none := by
        cases hf : QMap.findEntry n prog'.info.trim.entries with
        | none => rfl
        | some v =>
          rcases hent (n, v) (mem_of_findEntry n v _ hf) with h | ⟨_, c, hc, hcn, hcm⟩
          · exact absurd h (hnot _)
          · rw [hn c hc hcn] at hcm
            exact absurd hcm (by decide)
      simp [QMap.contains, trimModeOf, QMap.value, hfind]

/-- Witness of C8: an unmarked call leaves the sample state unchanged, and after the
sample sequence of calls node 5, which never received a marker, is absent. -/
theorem trim_table_never_holds_none_witness :
    addTrim Trim.standard 7 sampleState (some 42) (some (sampleToken 3)) none none none =
      some sampleState ∧
    ∃ d' prog', runTrimCalls Trim.standard 7 demoCalls sampleState = some d' ∧
      d'.curProg = some prog' ∧ prog'.info.trim.contains 5 = false ∧
      trimModeOf Trim.standard prog' 5 = Trim.standard.None :=
  have h := trim_table_never_holds_none Trim.standard 7
  ⟨h.1 _ _ _ _ _ _ (Or.inl (by decide)),
    match h.2.2.2.2.2.2 demoCalls sampleState ⟨⟨QMap.empty⟩⟩ rfl rfl with
    | ⟨d', prog', h1, h2, _, h4⟩ => ⟨d', prog', h1, h2, h4 5 (by decide)⟩⟩

/-! ## Negation -/

/-- C2: if `isNot` is a `TOK_NOT` token, `maybeNegate` returns a new expression node
whose operator is `Not`, whose left operand is `expr`, whose right operand is absent
and whose location is the location of `expr`; otherwise it returns `expr` itself,
unchanged. -/
theorem maybeNegate_spec (TOK_NOT : Int) (isNot : Token) (expr : ExpressionNode) :
    (isNot.tokenId = TOK_NOT →
      (maybeNegate TOK_NOT isNot expr).op = Operator.Not ∧
      (maybeNegate TOK_NOT isNot expr).left = some expr ∧
      (maybeNegate TOK_NOT isNot expr).right = none ∧
      (maybeNegate TOK_NOT isNot expr).loc = expr.loc) ∧
    (isNot.tokenId ≠ TOK_NOT → maybeNegate TOK_NOT isNot expr = expr) := by
  constructor
  · intro h
    simp [maybeNegate, h, ExpressionNode.op, ExpressionNode.left, ExpressionNode.right,
      ExpressionNode.loc]
  · intro h
    simp [maybeNegate, h]

/-- Witness of C2: with `TOK_NOT = 11`, a token with id 11 negates the sample
expression and a token with id 3 returns it unchanged. -/
theorem maybeNegate_spec_witness :
    ((maybeNegate 11 (sampleToken 11) demoExpr).op = Operator.Not ∧
      (maybeNegate 11 (sampleToken 11) demoExpr).left = some demoExpr ∧
      (maybeNegate 11 (sampleToken 11) demoExpr).right = none ∧
      (maybeNegate 11 (sampleToken 11) demoExpr).loc = demoExpr.loc) ∧
    maybeNegate 11 (sampleToken 3) demoExpr = demoExpr :=
  ⟨(maybeNegate_spec 11 (sampleToken 11) demoExpr).1 rfl,
    (maybeNegate_spec 11 (sampleToken 3) demoExpr).2 (by decide)⟩

/-! ## The feeding loop of `parse` -/

/-- The loop from index `i` on is the left fold of the token step over the tokens
from index `i` on. -/
theorem parseLoop_eq_foldl {A : Type} (G : Lemon A) (tokens : List Token) :
    ∀ (n i : Nat) (parser : A) (d : ParserPrivate), tokens.length - i = n →
      Parser.parseLoop G tokens i parser d = (tokens.drop i).foldl (feedToken G) (parser, d) := by
  intro n
  induction n with
  | zero =>
    intro i parser d h
    have hle : tokens.length ≤ i := Nat.le_of_sub_eq_zero h
    rw [Parser.parseLoop, dif_neg (Nat.not_lt.mpr hle), List.drop_eq_nil_of_le hle]
    rfl
  | succ n ih =>
    intro i parser d h
    have hlt : i < tokens.length := by omega
    rw [Parser.parseLoop, dif_pos hlt, List.drop_eq_getElem_cons hlt]
    simp only [List.foldl_cons]
    rw [ih (i + 1) _ _ (by omega)]
    rfl

/-- The whole of `parse` in terms of the fold: clear, feed every token, feed the end
of stream, reset `curProg`, and return whether the error has not failed. -/
theorem parse_eq {A : Type} (G : Lemon A) (hasFailed : TemplateError → Bool)
    (self : ParserPrivate) (tokens : List Token) (dptr : Option TemplateProgramPrivate) :
    Parser.parse G hasFailed self tokens dptr =
      ⟨!hasFailed (feedEnd G (tokens.foldl (feedToken G) (startState G self dptr))).2.error,
        { (feedEnd G (tokens.foldl (feedToken G) (startState G self dptr))).2 with
          curProg := none },
        (feedEnd G (tokens.foldl (feedToken G) (startState G self dptr))).2.curProg,
        self.node,
        (feedEnd G (tokens.foldl (feedToken G) (startState G self dptr))).1⟩ := by
  simp only [Parser.parse, parseLoop_eq_foldl G tokens tokens.length 0 _ _ rfl, List.drop_zero]
  rfl

/-- The fold of the logging automaton: the wrapped automaton runs as it would alone
and the log grows by one call per token, in order. -/
theorem foldl_traced {A : Type} (G : Lemon A) (tokens : List Token) :
    ∀ (s : A × ParserPrivate) (log : List (Int × Option Token)),
      tokens.foldl (feedToken (traced G)) ((s.1, log), s.2) =
        (((tokens.foldl (feedToken G) s).1, log ++ tokens.map (fun t => (t.tokenId, some t))),
          (tokens.foldl (feedToken G) s).2) := by
  induction tokens with
  | nil =>
    intro s log
    simp
  | cons t ts ih =>
    intro s log
    simp only [List.foldl_cons, List.map_cons]
    have h : feedToken (traced G) ((s.1, log), s.2) t =
        (((feedToken G s t).1, log ++ [(t.tokenId, some t)]), (feedToken G s t).2) := rfl
    rw [h, ih (feedToken G s t) (log ++ [(t.tokenId, some t)])]
    simp

/-- The outcome of `parse` as a fold, and the log of the logging automaton. -/
theorem parse_outcome_as_fold {A : Type} (G : Lemon A)
    (hasFailed : TemplateError → Bool) (self : ParserPrivate) (tokens : List Token)
    (dptr : Option TemplateProgramPrivate) :
    (Parser.parse G hasFailed self tokens dptr).parser =
      (feedEnd G (tokens.foldl (feedToken G) (startState G self dptr))).1 ∧
    (Parser.parse G hasFailed self tokens dptr).self =
      { (feedEnd G (tokens.foldl (feedToken G) (startState G self dptr))).2 with
        curProg := none } ∧
    (Parser.parse (traced G) hasFailed self tokens dptr).parser.2 =
      tokens.map (fun t => (t.tokenId, some t)) ++ [(0, none)] := by
  have ht : tokens.foldl (feedToken (traced G)) (startState (traced G) self dptr) =
      (((tokens.foldl (feedToken G) (startState G self dptr)).1,
        [] ++ tokens.map (fun t => (t.tokenId, some t))),
        (tokens.foldl (feedToken G) (startState G self dptr)).2) :=
    foldl_traced G tokens (startState G self dptr) []
  rw [parse_eq, parse_eq, ht]
  refine ⟨rfl, rfl, ?_⟩
  simp [feedEnd, traced]

/-- C3: for every token sequence, `parse` feeds the automaton every token exactly
once, in index order, each with its own `tokenId`, and then exactly one end-of-stream
step (token id 0, no token): the automaton state, the parser state (tree and error;
`curProg`, the handle to the target program, is reset to null by `parse`) and the
target program after `parse` are those of the left fold of the automaton step over
the tokens from the cleared state followed by one end-of-stream step, and the calls
received by the automaton are exactly the tokens in order followed by the
end-of-stream call. -/
theorem parse_feeds_every_token_in_order {A : Type} (G : Lemon A)
    (hasFailed : TemplateError → Bool) (self : ParserPrivate) (tokens : List Token)
    (dptr : Option TemplateProgramPrivate) :
    (startState G self dptr) =
      (G.TwigParserAlloc, ⟨none, self.engine, TemplateError.noError, dptr⟩) ∧
    (Parser.parse G hasFailed self tokens dptr).parser =
      (feedEnd G (tokens.foldl (feedToken G) (startState G self dptr))).1 ∧
    (Parser.parse G hasFailed self tokens dptr).self =
      { (feedEnd G (tokens.foldl (feedToken G) (startState G self dptr))).2 with
        curProg := none } ∧
    (Parser.parse G hasFailed self tokens dptr).self.node =
      (feedEnd G (tokens.foldl (feedToken G) (startState G self dptr))).2.node ∧
    Parser.lastError (Parser.parse G hasFailed self tokens dptr).self =
      (feedEnd G (tokens.foldl (feedToken G) (startState G self dptr))).2.error ∧
    (Parser.parse G hasFailed self tokens dptr).prog =
      (feedEnd G (tokens.foldl (feedToken G) (startState G self dptr))).2.curProg ∧
    (Parser.parse (traced G) hasFailed self tokens dptr).parser.2 =
      tokens.map (fun t => (t.tokenId, some t)) ++ [(0, none)] ∧
    (Parser.parse (traced G) hasFailed self tokens dptr).parser.1 =
      (Parser.parse G hasFailed self tokens dptr).parser ∧
    (Parser.parse (traced G) hasFailed self tokens dptr).self =
      (Parser.parse G hasFailed self tokens dptr).self := by
  have hall := parse_outcome_as_fold G hasFailed self tokens dptr
  have ht : tokens.foldl (feedToken (traced G)) (startState (traced G) self dptr) =
      (((tokens.foldl (feedToken G) (startState G self dptr)).1,
        [] ++ tokens.map (fun t => (t.tokenId, some t))),
        (tokens.foldl (feedToken G) (startState G self dptr)).2) :=
    foldl_traced G tokens (startState G self dptr) []
  refine ⟨rfl, hall.1, hall.2.1, ?_, ?_, ?_, hall.2.2, ?_, ?_⟩
  · rw [parse_eq]
  · rw [parse_eq]
    rfl
  · rw [parse_eq]
  · rw [parse_eq, parse_eq, ht]
    rfl
  · rw [parse_eq, parse_eq, ht]
    rfl

/-! ## Result, error and tree after `parse` -/

/-- C6: `parse` returns false if and only if the error held in the parser state at
the end of the parse has failed; `lastError ().hasFailed ()` afterwards is exactly
the negation of the return value, and after a true result the recorded error has
not failed. -/
theorem parse_result_iff_error_not_failed {A : Type} (G : Lemon A)
    (hasFailed : TemplateError → Bool) (self : ParserPrivate) (tokens : List Token)
    (dptr : Option TemplateProgramPrivate) :
    ((Parser.parse G hasFailed self tokens dptr).result = false ↔
      hasFailed (Parser.lastError (Parser.parse G hasFailed self tokens dptr).self) = true) ∧
    hasFailed (Parser.lastError (Parser.parse G hasFailed self tokens dptr).self) =
      !(Parser.parse G hasFailed self tokens dptr).result ∧
    ((Parser.parse G hasFailed self tokens dptr).result = true →
      hasFailed (Parser.lastError (Parser.parse G hasFailed self tokens dptr).self) = false) := by
  rw [parse_eq]
  simp [Parser.lastError]

/-- Witness of C6: the sample automaton accepts the one-token stream `3`, `parse`
returns true and the recorded error has not failed. -/
theorem parse_result_iff_error_not_failed_witness :
    (Parser.parse demoGrammar demoHasFailed usedState [sampleToken 3] demoTarget).result = true ∧
    demoHasFailed (Parser.lastError
      (Parser.parse demoGrammar demoHasFailed usedState [sampleToken 3] demoTarget).self) = false :=
  have h : (Parser.parse demoGrammar demoHasFailed usedState [sampleToken 3] demoTarget).result
      = true := by
    rw [parse_eq]
    rfl
  ⟨h, (parse_result_iff_error_not_failed demoGrammar demoHasFailed usedState [sampleToken 3]
    demoTarget).2.2 h⟩

/-- C7: `parse` is re-entrant. It clears the parser before feeding any token: the
tree held before is released, and the first step sees a null node, the no-error
value and the target program. Hence two parser states of the same engine give the
same return value, the same parser state afterwards (tree and error included), the
same target program and the same automaton state, whatever tree, error and current
program they held; in particular the result is the one of a freshly constructed
parser, so an error left by an earlier parse never makes a later parse fail. -/
theorem parse_reentrant {A : Type} (G : Lemon A) (hasFailed : TemplateError → Bool)
    (s1 s2 : ParserPrivate) (h : s1.engine = s2.engine) (tokens : List Token)
    (dptr : Option TemplateProgramPrivate) :
    (Parser.parse G hasFailed s1 tokens dptr).released = s1.node ∧
    (startState G s1 dptr).2 = ⟨none, s1.engine, TemplateError.noError, dptr⟩ ∧
    (Parser.parse G hasFailed s1 tokens dptr).result =
      (Parser.parse G hasFailed s2 tokens dptr).result ∧
    (Parser.parse G hasFailed s1 tokens dptr).self =
      (Parser.parse G hasFailed s2 tokens dptr).self ∧
    (Parser.parse G hasFailed s1 tokens dptr).self.node =
      (Parser.parse G hasFailed s2 tokens dptr).self.node ∧
    Parser.lastError (Parser.parse G hasFailed s1 tokens dptr).self =
      Parser.lastError (Parser.parse G hasFailed s2 tokens dptr).self ∧
    (Parser.parse G hasFailed s1 tokens dptr).prog =
      (Parser.parse G hasFailed s2 tokens dptr).prog ∧
    (Parser.parse G hasFailed s1 tokens dptr).parser =
      (Parser.parse G hasFailed s2 tokens dptr).parser ∧
    (Parser.parse G hasFailed s1 tokens dptr).result =
      (Parser.parse G hasFailed (Parser.new s1.engine) tokens dptr).result := by
  have h12 : startState G s1 dptr = startState G s2 dptr := by
    simp [startState, Parser.clear, h]
  have h1n : startState G s1 dptr = startState G (Parser.new s1.engine) dptr := by
    simp [startState, Parser.clear, Parser.new]
  refine ⟨by rw [parse_eq], rfl, ?_, ?_, ?_, ?_, ?_, ?_, ?_⟩
  · rw [parse_eq, parse_eq, h12]
  · rw [parse_eq, parse_eq, h12]
  · rw [parse_eq, parse_eq, h12]
  · rw [parse_eq, parse_eq, h12]
  · rw [parse_eq, parse_eq, h12]
  · rw [parse_eq, parse_eq, h12]
  · rw [parse_eq, parse_eq, h1n]

/-- Witness of C7: a parser holding a tree and a failed error parses the stream `3`
exactly as a fresh parser does. -/
theorem parse_reentrant_witness :
    (Parser.parse demoGrammar demoHasFailed usedState [sampleToken 3] demoTarget).released =
      usedState.node ∧
    (Parser.parse demoGrammar demoHasFailed usedState [sampleToken 3] demoTarget).result =
      (Parser.parse demoGrammar demoHasFailed (Parser.new none) [sampleToken 3]
        demoTarget).result ∧
    (Parser.parse demoGrammar demoHasFailed usedState [sampleToken 3] demoTarget).self =
      (Parser.parse demoGrammar demoHasFailed (Parser.new none) [sampleToken 3] demoTarget).self :=
  have h := parse_reentrant demoGrammar demoHasFailed usedState (Parser.new none) rfl
    [sampleToken 3] demoTarget
  ⟨h.1, h.2.2.1, h.2.2.2.1⟩

/-- C10: `stealBaseNode` returns exactly the node `baseNode` would return, leaves the
parser without a node (a following `baseNode` or `stealBaseNode` returns null) and
changes nothing else, the recorded error in particular; a later `clear` or `parse`
then releases no tree at all, so never the stolen one; `baseNode` itself leaves the
parser state unchanged. -/
theorem stealBaseNode_transfers_tree (d : ParserPrivate) :
    (Parser.stealBaseNode d).1 = (Parser.baseNode d).1 ∧
    (Parser.baseNode (Parser.stealBaseNode d).2).1 = none ∧
    (Parser.stealBaseNode (Parser.stealBaseNode d).2).1 = none ∧
    Parser.lastError (Parser.stealBaseNode d).2 = Parser.lastError d ∧
    (Parser.stealBaseNode d).2 = { d with node := none } ∧
    (Parser.clear (Parser.stealBaseNode d).2).2 = none ∧
    (∀ (A : Type) (G : Lemon A) (hasFailed : TemplateError → Bool) (tokens : List Token)
      (dptr : Option TemplateProgramPrivate),
      (Parser.parse G hasFailed (Parser.stealBaseNode d).2 tokens dptr).released = none) ∧
    (Parser.baseNode d).2 = d := by
  refine ⟨rfl, rfl, rfl, rfl, rfl, rfl, ?_, rfl⟩
  intro A G hasFailed tokens dptr
  rw [parse_eq]
  rfl

/-! ## The tree after a failed parse -/

/-- A step of the automaton keeps the invariant. -/
theorem specTwigParser_invariant {S : Type} (t : GrammarTables S)
    (s : AutomatonState S × ParserPrivate) (id : Int) (tok : Option Token)
    (h : SpecInvariant s) : SpecInvariant (specTwigParser t s.1 id tok s.2) := by
  obtain ⟨a, d⟩ := s
  cases a with
  | aborted => exact h
  | running stack =>
    simp only [specTwigParser]
    cases t.action stack id tok with
    | advance next record => exact h
    | accept next root record => exact h
    | unexpected => rfl

/-- Feeding a list of tokens keeps the invariant. -/
theorem foldl_feedToken_invariant {S : Type} (t : GrammarTables S) (tokens : List Token) :
    ∀ s : AutomatonState S × ParserPrivate, SpecInvariant s →
      SpecInvariant (tokens.foldl (feedToken (specAutomaton t)) s) := by
  induction tokens with
  | nil =>
    intro s h
    exact h
  | cons tok rest ih =>
    intro s h
    exact ih _ (specTwigParser_invariant t s tok.tokenId (some tok) h)

/-- C4: no partial tree is returned on failure. With the automaton as the
specification describes it, for every grammar and every token sequence, if `parse`
returns false then the tree has been discarded: `baseNode` and `stealBaseNode`
return null after the failed parse. The no-error value `TemplateError ()` is
assumed not to have failed. -/
theorem parse_failure_discards_tree {S : Type} (t : GrammarTables S)
    (hasFailed : TemplateError → Bool) (hno : hasFailed TemplateError.noError = false)
    (self : ParserPrivate) (tokens : List Token) (dptr : Option TemplateProgramPrivate)
    (hfail : (Parser.parse (specAutomaton t) hasFailed self tokens dptr).result = false) :
    (Parser.baseNode (Parser.parse (specAutomaton t) hasFailed self tokens dptr).self).1 = none ∧
    (Parser.stealBaseNode
      (Parser.parse (specAutomaton t) hasFailed self tokens dptr).self).1 = none := by
  have hstart : SpecInvariant (startState (specAutomaton t) self dptr) := rfl
  have hend : SpecInvariant (feedEnd (specAutomaton t)
      (tokens.foldl (feedToken (specAutomaton t)) (startState (specAutomaton t) self dptr))) :=
    specTwigParser_invariant t _ 0 none (foldl_feedToken_invariant t tokens _ hstart)
  rw [parse_eq] at hfail ⊢
  generalize feedEnd (specAutomaton t)
    (tokens.foldl (feedToken (specAutomaton t)) (startState (specAutomaton t) self dptr)) = fin
    at hfail hend
  obtain ⟨a, d⟩ := fin
  have hfailed : hasFailed d.error = true := by simpa using hfail
  cases a with
  | running stack =>
    have herr : d.error = TemplateError.noError := hend
    rw [herr, hno] at hfailed
    exact absurd hfailed (by decide)
  | aborted =>
    have hnode : d.node = none := hend
    exact ⟨hnode, hnode⟩

/-- Witness of C4: with the sample tables, the stream `3, 99, 3` fails on its second
token and no tree is held afterwards, although the end of stream would yield one;
the stream `3` alone succeeds and leaves the tree at address 1. -/
theorem parse_failure_discards_tree_witness :
    (Parser.parse (specAutomaton demoTables) demoHasFailed usedState
      [sampleToken 3, sampleToken 99, sampleToken 3] demoTarget).result = false ∧
    (Parser.baseNode (Parser.parse (specAutomaton demoTables) demoHasFailed usedState
      [sampleToken 3, sampleToken 99, sampleToken 3] demoTarget).self).1 = none ∧
    (Parser.stealBaseNode (Parser.parse (specAutomaton demoTables) demoHasFailed usedState
      [sampleToken 3, sampleToken 99, sampleToken 3] demoTarget).self).1 = none ∧
    (Parser.baseNode (Parser.parse (specAutomaton demoTables) demoHasFailed usedState
      [sampleToken 3] demoTarget).self).1 = some 1 :=
  have h : (Parser.parse (specAutomaton demoTables) demoHasFailed usedState
      [sampleToken 3, sampleToken 99, sampleToken 3] demoTarget).result = false := by
    rw [parse_eq]
    rfl
  have hc := parse_failure_discards_tree demoTables demoHasFailed rfl usedState
    [sampleToken 3, sampleToken 99, sampleToken 3] demoTarget h
  ⟨h, hc.1, hc.2, by rw [parse_eq]; rfl⟩

/-! ## Feeding after an error -/

/-- Counterexample to C5: with the sample automaton and the stream `99, 3`, feeding
token 0 records an error that has failed, and `parse` still feeds token 1 and the
end-of-stream signal to the automaton afterwards. -/
theorem parse_feeds_token_after_recorded_error :
    demoHasFailed (feedToken demoGrammar
      (startState demoGrammar (Parser.new none) demoTarget) (sampleToken 99)).2.error = true ∧
    (Parser.parse demoGrammar demoHasFailed (Parser.new none) [sampleToken 99, sampleToken 3]
      demoTarget).parser =
      [(99, some (sampleToken 99)), (3, some (sampleToken 3)), (0, none)] := by
  rw [parse_eq]
  exact ⟨rfl, rfl⟩

/-- C5, amended: a recorded error does not stop the feeding loop. For every token
sequence, once feeding token `i` has recorded an error, `parse` still feeds every
token after `i`, in index order and each with its own `tokenId`, and then the
end-of-stream signal: the outcome of `parse` is the one reached by continuing the
fold from the state after token `i` over all remaining tokens, and the automaton
receives the calls for the tokens after `i` and the end-of-stream call. -/
theorem parse_continues_after_error {A : Type} (G : Lemon A)
    (hasFailed : TemplateError → Bool) (self : ParserPrivate) (tokens : List Token)
    (dptr : Option TemplateProgramPrivate) (i : Nat) (_hi : i < tokens.length)
    (_herr : hasFailed ((tokens.take (i + 1)).foldl (feedToken G)
      (startState G self dptr)).2.error = true) :
    (Parser.parse G hasFailed self tokens dptr).parser =
      (feedEnd G ((tokens.drop (i + 1)).foldl (feedToken G)
        ((tokens.take (i + 1)).foldl (feedToken G) (startState G self dptr)))).1 ∧
    (Parser.parse G hasFailed self tokens dptr).self =
      { (feedEnd G ((tokens.drop (i + 1)).foldl (feedToken G)
        ((tokens.take (i + 1)).foldl (feedToken G) (startState G self dptr)))).2 with
        curProg := none } ∧
    (Parser.parse (traced G) hasFailed self tokens dptr).parser.2 =
      (tokens.take (i + 1)).map (fun t => (t.tokenId, some t)) ++
        ((tokens.drop (i + 1)).map (fun t => (t.tokenId, some t)) ++ [(0, none)]) := by
  have hsplit : ∀ s : A × ParserPrivate,
      (tokens.drop (i + 1)).foldl (feedToken G) ((tokens.take (i + 1)).foldl (feedToken G) s) =
        tokens.foldl (feedToken G) s := by
    intro s
    rw [← List.foldl_append, List.take_append_drop]
  have hall := parse_outcome_as_fold G hasFailed self tokens dptr
  rw [hsplit]
  refine ⟨hall.1, hall.2.1, ?_⟩
  rw [hall.2.2, ← List.append_assoc, ← List.map_append, List.take_append_drop]

/-- Witness of C5, amended: the stream `99, 3` with the sample automaton, `i = 0`. -/
theorem parse_continues_after_error_witness :
    demoHasFailed (([sampleToken 99, sampleToken 3].take (0 + 1)).foldl (feedToken demoGrammar)
      (startState demoGrammar (Parser.new none) demoTarget)).2.error = true ∧
    (Parser.parse (traced demoGrammar) demoHasFailed (Parser.new none)
      [sampleToken 99, sampleToken 3] demoTarget).parser.2 =
      ([sampleToken 99, sampleToken 3].take (0 + 1)).map (fun t => (t.tokenId, some t)) ++
        (([sampleToken 99, sampleToken 3].drop (0 + 1)).map (fun t => (t.tokenId, some t)) ++
          [(0, none)]) :=
  ⟨rfl, (parse_continues_after_error demoGrammar demoHasFailed (Parser.new none)
    [sampleToken 99, sampleToken 3] demoTarget 0 (by decide) rfl).2.2⟩

/-! ## Variable bindings of a program instance -/

theorem indexOf?_eq_none_iff_not_mem (l : List String) (name : String) :
    l.indexOf? name = none ↔ name ∉ l := by
  rw [List.indexOf?_eq_none_iff]
  constructor
  · intro h hm
    exact h name hm (by simp)
  · intro h x hx hxe
    have : x = name := by simpa using hxe
    exact h (this ▸ hx)

/-- C9: `setValue (name, value)` returns true if and only if `name` is one of the
program's needed variables; when it returns true, `value (name)` afterwards is the
value set; when it returns false, the instance is unchanged, bindings included; the
needed variables are the same afterwards in both cases. -/
theorem setValue_true_iff_needed {V : Type} (p : TemplateProgram V) (name : String) (v : V) :
    ((p.setValue name v).1 = true ↔ name ∈ p.neededVariables) ∧
    ((p.setValue name v).1 = true → (p.setValue name v).2.value name = some v) ∧
    ((p.setValue name v).1 = false → (p.setValue name v).2 = p) ∧
    (p.setValue name v).2.neededVariables = p.neededVariables := by
  cases hidx : p.sharedCompiled.neededVariables.indexOf? name with
  | none =>
    have hnot := (indexOf?_eq_none_iff_not_mem _ _).mp hidx
    simp [TemplateProgram.setValue, TemplateProgram.neededVariables, hidx, hnot]
  | some i =>
    have hmem : name ∈ p.sharedCompiled.neededVariables := by
      by_contra hc
      rw [(indexOf?_eq_none_iff_not_mem _ _).mpr hc] at hidx
      exact Option.noConfusion hidx
    simp [TemplateProgram.setValue, TemplateProgram.value, TemplateProgram.neededVariables,
      hidx, hmem]

/-- Witness of C9: on the sample instance, `setValue` of the needed variable `items`
binds it, and `setValue` of `doesNotExist` changes nothing. -/
theorem setValue_true_iff_needed_witness :
    (demoProgram.setValue "items" 3).1 = true ∧
    (demoProgram.setValue "items" 3).2.value "items" = some 3 ∧
    (demoProgram.setValue "doesNotExist" 3).1 = false ∧
    (demoProgram.setValue "doesNotExist" 3).2 = demoProgram :=
  have h1 : (demoProgram.setValue "items" 3).1 = true := by decide
  have h2 : (demoProgram.setValue "doesNotExist" 3).1 = false := by decide
  ⟨h1, (setValue_true_iff_needed demoProgram "items" 3).2.1 h1, h2,
    (setValue_true_iff_needed demoProgram "doesNotExist" 3).2.2.1 h2⟩

end Template
end Nuria
